import Mathlib

/-!
Karnaugh-map solver.

A shallow embedding of `InputNoOfVariablesWindow` (the window that asks for the
number of variables and lays out the grid of toggle buttons), and a model of the
minimization core over the group table of `table.h`, with the properties stated
for them.

C++ `int` values are `Int`; `/` and `%` on `int` truncate toward zero
(`Int.tdiv`, `Int.tmod`).  Calls into Qt are recorded as data: every button the
loops create is one `Created` record, in creation order, with the index it is
stored at in `button[MROW][MCOLUMN]`; whether that index lies inside the array
is the predicate `inButtonStore`.

A call leaves defined behaviour in two places: where `pow(2, e)` does not fit
an `int` (lines 26-29), and where a store `button[i][j]` falls outside the
array (line 54; the members `NOV, ROW, COLUMN, side` are declared right after
the array, so such stores can overwrite them).  `RecieveInputWindow` records
the values decided at lines 21-42, the iterations run up to the first store
outside the array, and then either what the call leaves behind or the place
where it left defined behaviour; nothing is said about the program after that
place.  Signal connections and widget ownership are not modelled.
-/

namespace KMap

/-! ## inputnoofvariableswindow.h -/

/-- The macro `MROW`, defined as 16. -/
def MROW : Int := 16

/-- The macro `MCOLUMN`, defined as 16. -/
def MCOLUMN : Int := 16

/-- The `int` members `NOV, ROW, COLUMN, side` of `InputNoOfVariablesWindow`. -/
structure InputNoOfVariablesWindow where
  NOV : Int
  ROW : Int
  COLUMN : Int
  side : Int
  deriving DecidableEq, Repr

/-! ## table.h -/

/-- Commented-out global `MAXX = 800` of `table.h`. -/
def MAXX : Int := 800

/-- Commented-out global `MAXY = 600` of `table.h`. -/
def MAXY : Int := 600

/-! ## inputnoofvariableswindow.cpp -/

/-- The call `pow(2, e)` stored into an `int`: the double `2^e` truncated toward zero.
For `e < 0` the double lies strictly between 0 and 1 and truncates to 0.  The
value fits an `int` for `e ≤ 30`; for larger `e` the conversion is undefined,
which `pow2Defined` guards. -/
def pow2 (e : Int) : Int :=
  if e < 0 then 0 else 2 ^ e.toNat

/-- The conversion of `pow(2, e)` to `int` is defined: `2^e` is at most
`INT_MAX = 2^31 - 1`. -/
def pow2Defined (e : Int) : Bool :=
  decide (e ≤ 30)

/-- One `QPushButton` as the loop body leaves it: `setFixedSize`, `setText`,
`setFlat`. -/
structure QPushButton where
  width : Int
  height : Int
  text : String
  flat : Bool
  deriving DecidableEq, Repr

/-- The arguments `i, j, NOV, ROW, COLUMN, side` of one `window->setter` call
(the layout and the button pointer are the ones of the same iteration). -/
structure SetterArgs where
  i : Int
  j : Int
  NOV : Int
  ROW : Int
  COLUMN : Int
  side : Int
  deriving DecidableEq, Repr

/-- One iteration of the inner loop: the store index of `button[i][j] = new
QPushButton`, the position given to `layout->addWidget`, the button, and the
`setter` call. -/
structure Created where
  i : Int
  j : Int
  layoutRow : Int
  layoutColumn : Int
  button : QPushButton
  setter : SetterArgs
  deriving DecidableEq, Repr

/-- The place where a call leaves defined behaviour: a `pow(2, e)` of lines
26-29 that does not fit an `int`, or the first store `button[i][j]` of line 54
outside the array. -/
inductive Undefined where
  | conversion
  | store (i j : Int)
  deriving DecidableEq, Repr

/-- What a call leaves behind when it stays within defined behaviour: the
members of the window after the call, the arguments of `window->setFixedSize`
(line 69), and `window->show()` (line 70). -/
structure Shown where
  members : InputNoOfVariablesWindow
  fixedWidth : Int
  fixedHeight : Int
  shown : Bool
  deriving DecidableEq, Repr

/-- One call of `RecieveInputWindow`: `self` holds the members as lines 21-42
decide them, before the loops run; `hidden` is `this->hide()`; `created` lists
the iterations of the loops in order, the last one being the first whose store
falls outside the array when there is one; `outcome` is what the call leaves
behind, or the place where it left defined behaviour. -/
structure Call where
  self : InputNoOfVariablesWindow
  hidden : Bool
  created : List Created
  outcome : Except Undefined Shown

/-- Lines 24-30, "Desciding the ROW and COLUMN": the pair `(ROW, COLUMN)`. -/
def decideRowColumn (NOV : Int) : Int × Int :=
  let noOfVar := NOV
  if Int.tmod noOfVar 2 = 0 then
    (pow2 (Int.tdiv noOfVar 2), pow2 (Int.tdiv noOfVar 2))
  else
    (pow2 (Int.tdiv noOfVar 2), pow2 (Int.tdiv noOfVar 2 + 1))

/-- Lines 24-30: both conversions of `pow` to `int` on the branch taken are
defined. -/
def decideRowColumnDefined (NOV : Int) : Bool :=
  let noOfVar := NOV
  if Int.tmod noOfVar 2 = 0 then
    pow2Defined (Int.tdiv noOfVar 2)
  else
    pow2Defined (Int.tdiv noOfVar 2) && pow2Defined (Int.tdiv noOfVar 2 + 1)

/-- Line 21 and lines 33-42, "Desciding the side": `side = 64`, then the
special cases. -/
def decideSide (NOV : Int) : Int :=
  let side := 64
  if NOV = 6 ∨ NOV = 7 then 32
  else if NOV = 8 then 16
  else if NOV = 9 ∨ NOV = 10 then 8
  else side

/-- Lines 54-61, the body of the inner loop at `(i, j)`. -/
def loopBody (NOV ROW COLUMN side : Int) (i j : Int) : Created :=
  { i := i, j := j
    layoutRow := i, layoutColumn := j
    button := { width := side, height := side, text := "0", flat := true }
    setter := { i := i, j := j, NOV := NOV, ROW := ROW, COLUMN := COLUMN, side := side } }

/-- Lines 50-65: `for(int i=0;i<ROW;i++) for(int j=0;j<COLUMN;j++)`, run with
the bounds as decided: `ROW` times `COLUMN` iterations (none when a bound is not
positive).  This is what the loops do as long as every store stays inside the
array, since the body then changes neither bound; `untilOverrun` cuts the list
where that ends. -/
def createButtons (NOV ROW COLUMN side : Int) : List Created :=
  (List.range ROW.toNat).flatMap fun (i : Nat) =>
    (List.range COLUMN.toNat).map fun (j : Nat) =>
      loopBody NOV ROW COLUMN side (i : Int) (j : Int)

/-- The index `(i, j)` lies inside `QPushButton *button[MROW][MCOLUMN]`. -/
def inButtonStore (i j : Int) : Prop :=
  0 ≤ i ∧ i < MROW ∧ 0 ≤ j ∧ j < MCOLUMN

instance (i j : Int) : Decidable (inButtonStore i j) := by
  unfold inButtonStore; infer_instance

/-- The index of the first iteration whose store `button[i][j]` (line 54) falls
outside the array, when there is one. -/
def firstOverrun : List Created → Option (Int × Int)
  | [] => none
  | c :: cs => if inButtonStore c.i c.j then firstOverrun cs else some (c.i, c.j)

/-- The iterations up to and including the first whose store falls outside the
array; all of them when there is none. -/
def untilOverrun : List Created → List Created
  | [] => []
  | c :: cs => if inButtonStore c.i c.j then c :: untilOverrun cs else [c]

/-- The member function `InputNoOfVariablesWindow::RecieveInputWindow`: line 21
and lines 24-42 decide the members, lines 50-65 create the buttons, line 69
fixes the size of the map window and line 70 shows it.  Lines 69-70 are reached
with the members as decided when the conversions of lines 26-29 are defined and
no store of line 54 falls outside the array. -/
def RecieveInputWindow (s : InputNoOfVariablesWindow) : Call :=
  let rc := decideRowColumn s.NOV
  let ROW := rc.1
  let COLUMN := rc.2
  let side := decideSide s.NOV
  let decided : InputNoOfVariablesWindow :=
    { NOV := s.NOV, ROW := ROW, COLUMN := COLUMN, side := side }
  let loops := createButtons s.NOV ROW COLUMN side
  { self := decided
    hidden := true
    created := if decideRowColumnDefined s.NOV then untilOverrun loops else []
    outcome :=
      if decideRowColumnDefined s.NOV then
        match firstOverrun loops with
        | some (i, j) => .error (.store i j)
        | none =>
          .ok { members := decided
                fixedWidth := side * (COLUMN - 1) + 100
                fixedHeight := side * (ROW - 1) + 150
                shown := true }
      else .error .conversion }

/-- The slot `InputNoOfVariablesWindow::on_pushButton_clicked`, with the value of the
spin box as `value`. -/
def on_pushButton_clicked (value : Int) (s : InputNoOfVariablesWindow) : Call :=
  RecieveInputWindow { s with NOV := value }

/-- The grid was built: buttons were created, and the call ran through to
`window->show()`. -/
def gridBuilt (o : Call) : Prop :=
  o.created ≠ [] ∧ ∃ c, o.outcome = .ok c ∧ c.shown = true

/-! ## The minimization core (spec sections 3, 4 and 6)

`table.h` declares the node types of the group tables; the functions that fill
them are not part of the sources at hand, so the solver below follows the
specification. -/

/-- The node `struct MapTable` of `table.h` without the `next` link: a group
with anchor `(i, j)` and extents `iSize` (height) and `jSize` (width).  The
fields are `int` in the source; the groups built below have non-negative
fields.  Groups that cross an edge, which the source keeps in a second table
(`FringeMapTable`), are groups of this type whose cells are taken modulo the
grid extents. -/
structure MapTable where
  i : Nat
  j : Nat
  iSize : Nat
  jSize : Nat
  deriving DecidableEq, Repr

/-- Modelled from the spec: the error kinds of section 7. -/
inductive SolveError where
  | InvalidDimension
  | UnsatisfiableCover
  deriving DecidableEq, Repr

/-- Modelled from the spec: the GridModel of section 4.1, a `ROWS` by `COLS`
boolean matrix. -/
structure GridModel where
  ROWS : Nat
  COLS : Nat
  matrix : List (List Bool)
  deriving DecidableEq, Repr

/-- Modelled from the spec: `valueAt(row, col)` of section 4.1. -/
def GridModel.valueAt (grid : GridModel) (row col : Nat) : Bool :=
  (grid.matrix.getD row []).getD col false

/-- Modelled from the spec: the axis-mapping rule of section 4.1, `(ROWS, COLS)`
for `N` variables. -/
def gridDimensions (N : Nat) : Nat × Nat :=
  if N % 2 = 0 then (2 ^ (N / 2), 2 ^ (N / 2)) else (2 ^ (N / 2), 2 ^ (N / 2 + 1))

/-- Modelled from the spec: construction of the GridModel (section 4.1), which
fails with `InvalidDimension` when the variable count is outside 1 to 10 or the
matrix is not `ROWS` by `COLS`. -/
def GridModel.construct (variableCount : Int) (matrix : List (List Bool)) :
    Except SolveError GridModel :=
  if variableCount < 1 ∨ 10 < variableCount then .error .InvalidDimension
  else
    let d := gridDimensions variableCount.toNat
    if matrix.length = d.1 ∧ (matrix.all fun row => row.length == d.2) = true then
      .ok { ROWS := d.1, COLS := d.2, matrix := matrix }
    else .error .InvalidDimension

/-- Modelled from the spec: the cells a group spans, wrap resolved modulo
`ROWS` and `COLS` (sections 3 and 4.2). -/
def MapTable.cells (ROWS COLS : Nat) (g : MapTable) : List (Nat × Nat) :=
  (List.range g.iSize).flatMap fun (di : Nat) =>
    (List.range g.jSize).map fun (dj : Nat) => ((g.i + di) % ROWS, (g.j + dj) % COLS)

/-- Modelled from the spec: "a power of two" (section 4.2). -/
def isPowerOfTwo (n : Nat) : Bool :=
  (List.range (n + 1)).any fun (k : Nat) => 2 ^ k == n

/-- Modelled from the spec: `isValidGroup(grid, anchor, height, width)` of
section 4.2. -/
def isValidGroup (grid : GridModel) (anchor : Nat × Nat) (height width : Nat) : Bool :=
  isPowerOfTwo height && isPowerOfTwo width &&
  decide (height ≤ grid.ROWS) && decide (width ≤ grid.COLS) &&
  (List.range height).all fun (di : Nat) =>
    (List.range width).all fun (dj : Nat) =>
      grid.valueAt ((anchor.1 + di) % grid.ROWS) ((anchor.2 + dj) % grid.COLS)

/-- Modelled from the spec: the powers of two up to the full extent `n` of an
axis (section 4.3). -/
def powersOfTwoUpTo (n : Nat) : List Nat :=
  (List.range (n + 1)).filter isPowerOfTwo

/-- Modelled from the spec: the collection step of `findMaximalGroups`
(section 4.3): every anchor and every power-of-two height and width whose
region is valid. -/
def allValidGroups (grid : GridModel) : List MapTable :=
  (List.range grid.ROWS).flatMap fun (r : Nat) =>
    (List.range grid.COLS).flatMap fun (c : Nat) =>
      (powersOfTwoUpTo grid.ROWS).flatMap fun (h : Nat) =>
        ((powersOfTwoUpTo grid.COLS).filter fun (w : Nat) => isValidGroup grid (r, c) h w).map
          fun (w : Nat) => { i := r, j := c, iSize := h, jSize := w }

/-- Modelled from the spec: every cell of `a` is a cell of `b`. -/
def subsetCells (a b : List (Nat × Nat)) : Bool :=
  a.all fun p => b.contains p

/-- Modelled from the spec: "a strict subset (in covered-cell terms)" (section
4.3). -/
def strictSubsetCells (a b : List (Nat × Nat)) : Bool :=
  subsetCells a b && !subsetCells b a

/-- Modelled from the spec: `findMaximalGroups(grid)` of section 4.3: the valid
groups that are not a strict subset of another valid group. -/
def findMaximalGroups (grid : GridModel) : List MapTable :=
  (allValidGroups grid).filter fun g =>
    !((allValidGroups grid).any fun g' =>
      strictSubsetCells (g.cells grid.ROWS grid.COLS) (g'.cells grid.ROWS grid.COLS))

/-- Modelled from the spec: the true cells of the grid, in row-major order. -/
def trueCells (grid : GridModel) : List (Nat × Nat) :=
  (List.range grid.ROWS).flatMap fun (r : Nat) =>
    ((List.range grid.COLS).filter fun (c : Nat) => grid.valueAt r c).map fun (c : Nat) => (r, c)

/-- Modelled from the spec: the cell `p` is covered by some group of `cover`. -/
def covered (ROWS COLS : Nat) (cover : List MapTable) (p : Nat × Nat) : Bool :=
  cover.any fun g => (g.cells ROWS COLS).contains p

/-- Modelled from the spec: an essential group (section 4.4, step 1): some true
cell it covers has no other candidate covering it. -/
def isEssential (ROWS COLS : Nat) (candidates : List MapTable) (cells : List (Nat × Nat))
    (g : MapTable) : Bool :=
  cells.any fun p =>
    (g.cells ROWS COLS).contains p &&
      candidates.all fun g' => !(g'.cells ROWS COLS).contains p || g' == g

/-- Modelled from the spec: the true cells no group of `cover` covers. -/
def uncovered (ROWS COLS : Nat) (cover : List MapTable) (cells : List (Nat × Nat)) :
    List (Nat × Nat) :=
  cells.filter fun p => !covered ROWS COLS cover p

/-- Modelled from the spec: how many currently uncovered cells `g` covers. -/
def gain (ROWS COLS : Nat) (cover : List MapTable) (cells : List (Nat × Nat))
    (g : MapTable) : Nat :=
  ((uncovered ROWS COLS cover cells).filter fun p => (g.cells ROWS COLS).contains p).length

/-- Modelled from the spec: the choice order of section 4.4, step 2: `g` goes
before `h` when it covers more uncovered cells, then when it has the larger cell
count, then when its anchor is lower (row, then column). -/
def preferred (ROWS COLS : Nat) (cover : List MapTable) (cells : List (Nat × Nat))
    (g h : MapTable) : Bool :=
  let gg := gain ROWS COLS cover cells g
  let gh := gain ROWS COLS cover cells h
  let sg := g.iSize * g.jSize
  let sh := h.iSize * h.jSize
  decide (gh < gg) ||
    (gg == gh && (decide (sh < sg) ||
      (sg == sh && (decide (g.i < h.i) || (g.i == h.i && decide (g.j < h.j))))))

/-- Modelled from the spec: the remaining candidate chosen in one round of
section 4.4, step 2. -/
def chooseBest (ROWS COLS : Nat) (cover : List MapTable) (cells : List (Nat × Nat))
    (first : MapTable) (rest : List MapTable) : MapTable :=
  rest.foldl (fun best g => if preferred ROWS COLS cover cells g best then g else best) first

/-- Modelled from the spec: the loop of section 4.4, step 2.  Each round moves
one remaining candidate into the cover, so `remaining.length` rounds are enough
fuel; the spec does not say what happens when no candidate remains, and the
loop ends there. -/
def greedyLoop (ROWS COLS : Nat) (cells : List (Nat × Nat)) :
    Nat → List MapTable → List MapTable → List MapTable
  | 0, _, cover => cover
  | fuel + 1, remaining, cover =>
    if (uncovered ROWS COLS cover cells).isEmpty then cover
    else
      match remaining with
      | [] => cover
      | first :: rest =>
        let best := chooseBest ROWS COLS cover cells first rest
        greedyLoop ROWS COLS cells fuel ((first :: rest).erase best) (cover ++ [best])

/-- Modelled from the spec: the redundancy pass of section 4.4, step 3, taken
one group at a time in cover order: a group is dropped when the groups still in
the cover (those kept so far and those not yet visited) cover all its cells. -/
def redundancyPass (ROWS COLS : Nat) : List MapTable → List MapTable → List MapTable
  | kept, [] => kept
  | kept, g :: rest =>
    if subsetCells (g.cells ROWS COLS) ((kept ++ rest).flatMap fun h => h.cells ROWS COLS) then
      redundancyPass ROWS COLS kept rest
    else redundancyPass ROWS COLS (kept ++ [g]) rest

/-- Modelled from the spec: `selectMinimalCover(candidateGroups, trueCells)` of
section 4.4, with the grid extents needed to resolve wrap. -/
def selectMinimalCover (ROWS COLS : Nat) (candidateGroups : List MapTable)
    (cells : List (Nat × Nat)) : Except SolveError (List MapTable) :=
  if !cells.isEmpty && candidateGroups.isEmpty then .error .UnsatisfiableCover
  else
    let essential := candidateGroups.filter (isEssential ROWS COLS candidateGroups cells)
    let remaining := candidateGroups.filter fun g => !essential.contains g
    let cover := greedyLoop ROWS COLS cells remaining.length remaining essential
    .ok (redundancyPass ROWS COLS [] cover)

/-- Modelled from the spec: the Cover selected by `solve(variableCount, matrix)`
of section 6 (GridModel, then GroupFinder, then CoverSelector). -/
def solveCover (variableCount : Int) (matrix : List (List Bool)) :
    Except SolveError (List MapTable) :=
  match GridModel.construct variableCount matrix with
  | .error e => .error e
  | .ok grid =>
    selectMinimalCover grid.ROWS grid.COLS (findMaximalGroups grid) (trueCells grid)

/-! ## Lemmas on the button loops -/

theorem pow2_nonneg (e : Int) : 0 ≤ pow2 e := by
  unfold pow2
  split
  · exact le_refl 0
  · positivity

theorem decideRowColumn_nonneg (N : Int) :
    0 ≤ (decideRowColumn N).1 ∧ 0 ≤ (decideRowColumn N).2 := by
  unfold decideRowColumn
  dsimp only
  split <;> exact ⟨pow2_nonneg _, pow2_nonneg _⟩

theorem getElem?_flatMap_range {α : Type} (f : Nat → Nat → α) (m : Nat) :
    ∀ (n k : Nat), k < n * m →
      ((List.range n).flatMap fun i => (List.range m).map (f i))[k]? =
        some (f (k / m) (k % m))
  | 0, k, hk => by simp at hk
  | n + 1, k, hk => by
    have hlen : ((List.range n).flatMap fun i => (List.range m).map (f i)).length = n * m := by
      clear hk
      induction n with
      | zero => simp
      | succ n ih => simp [List.range_succ, List.flatMap_append, ih, Nat.succ_mul]
    have hm : 0 < m := by
      rcases Nat.eq_zero_or_pos m with h | h
      · subst h; simp at hk
      · exact h
    rw [List.range_succ, List.flatMap_append]
    by_cases hlt : k < n * m
    · rw [List.getElem?_append_left (by rw [hlen]; exact hlt)]
      exact getElem?_flatMap_range f m n k hlt
    · have hge : n * m ≤ k := Nat.le_of_not_lt hlt
      rw [List.getElem?_append_right (by rw [hlen]; exact hge), hlen]
      have hsub : k - n * m < m := by
        have : (n + 1) * m = n * m + m := Nat.succ_mul n m
        omega
      have hdiv : k / m = n := by
        apply Nat.div_eq_of_lt_le
        · exact hge
        · exact hk
      have hmod : k % m = k - n * m := by
        have h := Nat.div_add_mod k m
        rw [hdiv, Nat.mul_comm] at h
        omega
      simp [hsub, hdiv, hmod]

theorem createButtons_length (NOV ROW COLUMN side : Int) :
    (createButtons NOV ROW COLUMN side).length = ROW.toNat * COLUMN.toNat := by
  unfold createButtons
  generalize ROW.toNat = n
  induction n with
  | zero => simp
  | succ n ih => simp [List.range_succ, List.flatMap_append, ih, Nat.succ_mul]

theorem mem_createButtons (NOV ROW COLUMN side : Int) (c : Created) :
    c ∈ createButtons NOV ROW COLUMN side ↔
      ∃ i j : Nat, i < ROW.toNat ∧ j < COLUMN.toNat ∧
        c = loopBody NOV ROW COLUMN side (i : Int) (j : Int) := by
  unfold createButtons
  simp only [List.mem_flatMap, List.mem_map, List.mem_range]
  constructor
  · rintro ⟨i, hi, j, hj, rfl⟩
    exact ⟨i, j, hi, hj, rfl⟩
  · rintro ⟨i, j, hi, hj, rfl⟩
    exact ⟨i, hi, j, hj, rfl⟩

theorem createButtons_getElem? (NOV ROW COLUMN side : Int) (k : Nat)
    (hk : k < ROW.toNat * COLUMN.toNat) :
    (createButtons NOV ROW COLUMN side)[k]? =
      some (loopBody NOV ROW COLUMN side ((k / COLUMN.toNat : Nat) : Int)
        ((k % COLUMN.toNat : Nat) : Int)) := by
  unfold createButtons
  exact getElem?_flatMap_range
    (fun i j => loopBody NOV ROW COLUMN side (i : Int) (j : Int)) COLUMN.toNat ROW.toNat k hk

theorem createButtons_nodup (NOV ROW COLUMN side : Int) :
    ((createButtons NOV ROW COLUMN side).map fun c => (c.setter.i, c.setter.j)).Nodup := by
  have h : ((createButtons NOV ROW COLUMN side).map fun c => (c.setter.i, c.setter.j)) =
      (List.product (List.range ROW.toNat) (List.range COLUMN.toNat)).map
        (fun p : Nat × Nat => ((p.1 : Int), (p.2 : Int))) := by
    unfold createButtons List.product
    simp [List.map_flatMap, List.flatMap_map, loopBody, Function.comp_def]
  rw [h]
  apply List.Nodup.map
  · rintro ⟨a, b⟩ ⟨c, d⟩ hab
    simp only [Prod.mk.injEq, Nat.cast_inj] at hab
    exact Prod.ext hab.1 hab.2
  · exact List.Nodup.product (List.nodup_range _) (List.nodup_range _)

theorem pow2_large (e : Int) (he : 5 ≤ e) : 32 ≤ pow2 e := by
  unfold pow2
  have h0 : ¬ e < 0 := by omega
  rw [if_neg h0]
  have h5 : 5 ≤ e.toNat := by omega
  calc (32 : Int) = 2 ^ 5 := by norm_num
    _ ≤ 2 ^ e.toNat := pow_le_pow_right₀ (by norm_num) h5

theorem fits_le_eight (N : Int) (h0 : 0 ≤ N) (hC : (decideRowColumn N).2 ≤ MCOLUMN) :
    N ≤ 8 := by
  by_contra hN
  have h9 : 9 ≤ N := by omega
  have hd : Int.tdiv N 2 = N / 2 := Int.tdiv_eq_ediv h0 (by decide)
  have hm : Int.tmod N 2 = N % 2 := Int.tmod_eq_emod h0 (by decide)
  unfold decideRowColumn MCOLUMN at hC
  simp only [hd, hm] at hC
  split at hC
  · have := pow2_large (N / 2) (by omega)
    simp only at hC
    omega
  · have := pow2_large (N / 2 + 1) (by omega)
    simp only at hC
    omega

theorem small_fits (N : Int) (h0 : 0 ≤ N) (h8 : N ≤ 8) :
    1 ≤ (decideRowColumn N).1 ∧ (decideRowColumn N).1 ≤ MROW ∧
    1 ≤ (decideRowColumn N).2 ∧ (decideRowColumn N).2 ≤ MCOLUMN ∧
    (decideRowColumn N).1 * (decideRowColumn N).2 = 2 ^ N.toNat := by
  interval_cases N <;> simp [decideRowColumn, pow2, MROW, MCOLUMN] <;> decide

theorem RecieveInputWindow_self (s : InputNoOfVariablesWindow) :
    (RecieveInputWindow s).self =
      { NOV := s.NOV, ROW := (decideRowColumn s.NOV).1, COLUMN := (decideRowColumn s.NOV).2,
        side := decideSide s.NOV } :=
  rfl

theorem firstOverrun_eq_none (l : List Created)
    (h : ∀ c ∈ l, inButtonStore c.i c.j) : firstOverrun l = none := by
  induction l with
  | nil => rfl
  | cons c cs ih =>
    unfold firstOverrun
    rw [if_pos (h c (List.mem_cons_self _ _))]
    exact ih fun d hd => h d (List.mem_cons_of_mem _ hd)

theorem untilOverrun_eq_self (l : List Created)
    (h : ∀ c ∈ l, inButtonStore c.i c.j) : untilOverrun l = l := by
  induction l with
  | nil => rfl
  | cons c cs ih =>
    unfold untilOverrun
    rw [if_pos (h c (List.mem_cons_self _ _)), ih fun d hd => h d (List.mem_cons_of_mem _ hd)]

theorem createButtons_inButtonStore (NOV ROW COLUMN side : Int)
    (hR : ROW ≤ MROW) (hC : COLUMN ≤ MCOLUMN) :
    ∀ c ∈ createButtons NOV ROW COLUMN side, inButtonStore c.i c.j := by
  intro c hc
  obtain ⟨i, j, hi, hj, rfl⟩ := (mem_createButtons NOV ROW COLUMN side c).1 hc
  simp only [loopBody, inButtonStore]
  omega

theorem tdiv_two_nonpos (N : Int) (hN : N < 0) : Int.tdiv N 2 ≤ 0 := by
  have h : Int.tdiv N 2 = -(Int.tdiv (-N) 2) := by
    rw [← Int.neg_tdiv, neg_neg]
  have h2 : 0 ≤ Int.tdiv (-N) 2 := Int.tdiv_nonneg (by omega) (by decide)
  omega

theorem pow2_le_one (e : Int) (he : e ≤ 0) : pow2 e ≤ 1 := by
  unfold pow2
  split
  · decide
  · have h0 : e = 0 := by omega
    subst h0
    decide

theorem pow2_le_two (e : Int) (he : e ≤ 1) : pow2 e ≤ 2 := by
  unfold pow2
  split
  · decide
  · have h01 : e = 0 ∨ e = 1 := by omega
    rcases h01 with h | h <;> subst h <;> decide

theorem le_eight_fits (N : Int) (h8 : N ≤ 8) :
    decideRowColumnDefined N = true ∧
    (decideRowColumn N).1 ≤ MROW ∧ (decideRowColumn N).2 ≤ MCOLUMN := by
  by_cases h0 : 0 ≤ N
  · obtain ⟨_, hR, _, hC, _⟩ := small_fits N h0 h8
    refine ⟨?_, hR, hC⟩
    interval_cases N <;> decide
  · have hq := tdiv_two_nonpos N (by omega)
    refine ⟨?_, ?_, ?_⟩
    · unfold decideRowColumnDefined pow2Defined
      dsimp only
      split
      · exact decide_eq_true (by omega)
      · rw [Bool.and_eq_true]
        exact ⟨decide_eq_true (by omega), decide_eq_true (by omega)⟩
    · unfold decideRowColumn MROW
      dsimp only
      split <;> exact le_trans (pow2_le_one _ hq) (by decide)
    · unfold decideRowColumn MCOLUMN
      dsimp only
      split
      · exact le_trans (pow2_le_one _ hq) (by decide)
      · exact le_trans (pow2_le_two _ (by omega)) (by decide)

/-- A call whose conversions are defined and whose derived grid fits the button
store runs every iteration and reaches lines 69-70 with the members as
decided. -/
theorem RecieveInputWindow_of_fits (s : InputNoOfVariablesWindow)
    (hdef : decideRowColumnDefined s.NOV = true)
    (hR : (decideRowColumn s.NOV).1 ≤ MROW) (hC : (decideRowColumn s.NOV).2 ≤ MCOLUMN) :
    (RecieveInputWindow s).created =
      createButtons s.NOV (decideRowColumn s.NOV).1 (decideRowColumn s.NOV).2
        (decideSide s.NOV) ∧
    (RecieveInputWindow s).outcome =
      .ok { members := (RecieveInputWindow s).self
            fixedWidth := decideSide s.NOV * ((decideRowColumn s.NOV).2 - 1) + 100
            fixedHeight := decideSide s.NOV * ((decideRowColumn s.NOV).1 - 1) + 150
            shown := true } := by
  have hin := createButtons_inButtonStore s.NOV _ _ (decideSide s.NOV) hR hC
  unfold RecieveInputWindow
  simp only [hdef, if_true, untilOverrun_eq_self _ hin, firstOverrun_eq_none _ hin, true_and]

theorem firstOverrun_nine :
    firstOverrun (createButtons 9 16 32 8) = some (0, 16) := by
  decide

theorem firstOverrun_ten :
    firstOverrun (createButtons 10 32 32 8) = some (0, 16) := by
  decide

theorem untilOverrun_nine :
    untilOverrun (createButtons 9 16 32 8) =
      (List.range 17).map fun (j : Nat) => loopBody 9 16 32 8 0 (j : Int) := by
  decide

theorem untilOverrun_ten :
    untilOverrun (createButtons 10 32 32 8) =
      (List.range 17).map fun (j : Nat) => loopBody 10 32 32 8 0 (j : Int) := by
  decide

theorem RecieveInputWindow_nine (s : InputNoOfVariablesWindow) :
    (RecieveInputWindow { s with NOV := 9 }).created =
      (List.range 17).map (fun (j : Nat) => loopBody 9 16 32 8 0 (j : Int)) ∧
    (RecieveInputWindow { s with NOV := 9 }).outcome = .error (.store 0 16) := by
  have hd : decideRowColumnDefined 9 = true := by decide
  have hrc : decideRowColumn 9 = (16, 32) := by decide
  have hs : decideSide 9 = 8 := by decide
  unfold RecieveInputWindow
  simp only [hd, hrc, hs, if_true, firstOverrun_nine, untilOverrun_nine, true_and]

theorem RecieveInputWindow_ten (s : InputNoOfVariablesWindow) :
    (RecieveInputWindow { s with NOV := 10 }).created =
      (List.range 17).map (fun (j : Nat) => loopBody 10 32 32 8 0 (j : Int)) ∧
    (RecieveInputWindow { s with NOV := 10 }).outcome = .error (.store 0 16) := by
  have hd : decideRowColumnDefined 10 = true := by decide
  have hrc : decideRowColumn 10 = (32, 32) := by decide
  have hs : decideSide 10 = 8 := by decide
  unfold RecieveInputWindow
  simp only [hd, hrc, hs, if_true, firstOverrun_ten, untilOverrun_ten, true_and]

/-! ## Lemmas on groups and covers -/

theorem mem_cells (R C : Nat) (g : MapTable) (p : Nat × Nat) :
    p ∈ g.cells R C ↔
      ∃ di dj : Nat, di < g.iSize ∧ dj < g.jSize ∧ p = ((g.i + di) % R, (g.j + dj) % C) := by
  unfold MapTable.cells
  simp only [List.mem_flatMap, List.mem_map, List.mem_range]
  constructor
  · rintro ⟨di, hdi, dj, hdj, rfl⟩
    exact ⟨di, dj, hdi, hdj, rfl⟩
  · rintro ⟨di, dj, hdi, hdj, rfl⟩
    exact ⟨di, hdi, dj, hdj, rfl⟩

theorem subsetCells_iff (a b : List (Nat × Nat)) :
    subsetCells a b = true ↔ ∀ p ∈ a, p ∈ b := by
  simp [subsetCells]

theorem covered_iff (R C : Nat) (cover : List MapTable) (p : Nat × Nat) :
    covered R C cover p = true ↔ ∃ g ∈ cover, p ∈ g.cells R C := by
  simp [covered]

theorem isPowerOfTwo_pos (n : Nat) (h : isPowerOfTwo n = true) : 0 < n := by
  unfold isPowerOfTwo at h
  simp only [List.any_eq_true, List.mem_range, beq_iff_eq] at h
  obtain ⟨k, _, rfl⟩ := h
  positivity

theorem isValidGroup_cells (grid : GridModel) (r c h w : Nat)
    (hv : isValidGroup grid (r, c) h w = true) :
    ∀ p ∈ ({ i := r, j := c, iSize := h, jSize := w } : MapTable).cells grid.ROWS grid.COLS,
      p.1 < grid.ROWS ∧ p.2 < grid.COLS ∧ grid.valueAt p.1 p.2 = true := by
  unfold isValidGroup at hv
  simp only [Bool.and_eq_true, decide_eq_true_eq, List.all_eq_true, List.mem_range] at hv
  obtain ⟨⟨⟨⟨hh, hw⟩, hR⟩, hC⟩, hall⟩ := hv
  have hRpos : 0 < grid.ROWS := lt_of_lt_of_le (isPowerOfTwo_pos h hh) hR
  have hCpos : 0 < grid.COLS := lt_of_lt_of_le (isPowerOfTwo_pos w hw) hC
  intro p hp
  obtain ⟨di, dj, hdi, hdj, rfl⟩ := (mem_cells _ _ _ p).1 hp
  exact ⟨Nat.mod_lt _ hRpos, Nat.mod_lt _ hCpos, hall di hdi dj hdj⟩

theorem mem_powersOfTwoUpTo (n h : Nat) :
    h ∈ powersOfTwoUpTo n ↔ h ≤ n ∧ isPowerOfTwo h = true := by
  unfold powersOfTwoUpTo
  simp only [List.mem_filter, List.mem_range, Nat.lt_succ_iff]

theorem mem_allValidGroups (grid : GridModel) (g : MapTable) :
    g ∈ allValidGroups grid ↔
      g.i < grid.ROWS ∧ g.j < grid.COLS ∧
        isValidGroup grid (g.i, g.j) g.iSize g.jSize = true := by
  unfold allValidGroups
  simp only [List.mem_flatMap, List.mem_map, List.mem_filter, List.mem_range,
    mem_powersOfTwoUpTo]
  constructor
  · rintro ⟨r, hr, c, hc, h, _, w, ⟨_, hv⟩, rfl⟩
    exact ⟨hr, hc, hv⟩
  · rintro ⟨hr, hc, hv⟩
    have hv2 := hv
    unfold isValidGroup at hv2
    simp only [Bool.and_eq_true, decide_eq_true_eq] at hv2
    obtain ⟨⟨⟨⟨hh, hw⟩, hR⟩, hC⟩, _⟩ := hv2
    exact ⟨g.i, hr, g.j, hc, g.iSize, ⟨hR, hh⟩, g.jSize, ⟨⟨hC, hw⟩, hv⟩, rfl⟩

theorem unit_group_valid (grid : GridModel) (r c : Nat) (hr : r < grid.ROWS)
    (hc : c < grid.COLS) (hv : grid.valueAt r c = true) :
    isValidGroup grid (r, c) 1 1 = true := by
  unfold isValidGroup
  have h1 : isPowerOfTwo 1 = true := by decide
  simp only [h1, Bool.and_eq_true, decide_eq_true_eq, List.all_eq_true, List.mem_range,
    true_and]
  refine ⟨⟨by omega, by omega⟩, ?_⟩
  intro di hdi dj hdj
  have hdi0 : di = 0 := by omega
  have hdj0 : dj = 0 := by omega
  subst hdi0 hdj0
  simp only [Nat.add_zero, Nat.mod_eq_of_lt hr, Nat.mod_eq_of_lt hc]
  exact hv

theorem mem_findMaximalGroups (grid : GridModel) (g : MapTable) :
    g ∈ findMaximalGroups grid ↔
      g ∈ allValidGroups grid ∧
        ∀ g' ∈ allValidGroups grid,
          strictSubsetCells (g.cells grid.ROWS grid.COLS) (g'.cells grid.ROWS grid.COLS)
            = false := by
  unfold findMaximalGroups
  simp only [List.mem_filter, Bool.not_eq_true', List.any_eq_false, Bool.not_eq_true]

theorem exists_maximal_covering (grid : GridModel) (g : MapTable)
    (hg : g ∈ allValidGroups grid) (p : Nat × Nat)
    (hp : p ∈ g.cells grid.ROWS grid.COLS) :
    ∃ m ∈ findMaximalGroups grid, p ∈ m.cells grid.ROWS grid.COLS := by
  classical
  let S : Finset MapTable :=
    ((allValidGroups grid).filter fun g => p ∈ g.cells grid.ROWS grid.COLS).toFinset
  have hS : S.Nonempty := ⟨g, by simp [S, hg, hp]⟩
  obtain ⟨m, hmS, hmax⟩ :=
    Finset.exists_max_image S (fun g => (g.cells grid.ROWS grid.COLS).toFinset.card) hS
  have hm : m ∈ allValidGroups grid ∧ p ∈ m.cells grid.ROWS grid.COLS := by
    simpa [S] using hmS
  refine ⟨m, (mem_findMaximalGroups grid m).2 ⟨hm.1, ?_⟩, hm.2⟩
  intro g' hg'
  by_contra hne
  have hst : strictSubsetCells (m.cells grid.ROWS grid.COLS) (g'.cells grid.ROWS grid.COLS)
      = true := by simpa using hne
  unfold strictSubsetCells at hst
  simp only [Bool.and_eq_true, Bool.not_eq_true', ← Bool.not_eq_true] at hst
  obtain ⟨hsub, hnsub⟩ := hst
  rw [subsetCells_iff] at hsub hnsub
  have hg'S : g' ∈ S := by simp [S, hg', hsub p hm.2]
  have hlt : (m.cells grid.ROWS grid.COLS).toFinset.card <
      (g'.cells grid.ROWS grid.COLS).toFinset.card := by
    apply Finset.card_lt_card
    rw [Finset.ssubset_iff_subset_ne]
    refine ⟨fun x hx => ?_, fun heq => hnsub fun x hx => ?_⟩
    · exact List.mem_toFinset.2 (hsub x (List.mem_toFinset.1 hx))
    · have : x ∈ (g'.cells grid.ROWS grid.COLS).toFinset := List.mem_toFinset.2 hx
      rw [← heq] at this
      exact List.mem_toFinset.1 this
  have := hmax g' hg'S
  omega

theorem chooseBest_mem (R C : Nat) (cover : List MapTable) (cells : List (Nat × Nat))
    (rest : List MapTable) :
    ∀ first : MapTable, chooseBest R C cover cells first rest = first ∨
      chooseBest R C cover cells first rest ∈ rest := by
  induction rest with
  | nil => intro first; exact Or.inl rfl
  | cons g rest ih =>
    intro first
    unfold chooseBest
    rw [List.foldl_cons]
    by_cases hpref : preferred R C cover cells g first = true
    · rw [if_pos hpref]
      rcases ih g with h | h
      · exact Or.inr (by rw [show List.foldl _ g rest = g from h]; exact List.mem_cons_self _ _)
      · exact Or.inr (List.mem_cons_of_mem _ h)
    · rw [if_neg hpref]
      rcases ih first with h | h
      · exact Or.inl h
      · exact Or.inr (List.mem_cons_of_mem _ h)

theorem covered_append (R C : Nat) (a b : List MapTable) (p : Nat × Nat) :
    covered R C (a ++ b) p = true ↔ covered R C a p = true ∨ covered R C b p = true := by
  simp [covered]

theorem greedyLoop_covers (R C : Nat) (cells : List (Nat × Nat)) :
    ∀ (fuel : Nat) (remaining cover : List MapTable), remaining.length ≤ fuel →
      (∀ p ∈ cells, covered R C cover p = true ∨ ∃ g ∈ remaining, p ∈ g.cells R C) →
      ∀ p ∈ cells, covered R C (greedyLoop R C cells fuel remaining cover) p = true
  | 0, remaining, cover, hlen, hinv => by
    intro p hp
    have hnil : remaining = [] := List.length_eq_zero.1 (Nat.le_zero.1 hlen)
    subst hnil
    rcases hinv p hp with h | ⟨g, hg, _⟩
    · simpa [greedyLoop] using h
    · simp at hg
  | fuel + 1, remaining, cover, hlen, hinv => by
    intro p hp
    unfold greedyLoop
    by_cases hdone : (uncovered R C cover cells).isEmpty = true
    · rw [if_pos hdone]
      have hnil : uncovered R C cover cells = [] := List.isEmpty_iff.1 hdone
      by_contra hcov
      have : p ∈ uncovered R C cover cells := by
        unfold uncovered
        simp only [List.mem_filter, Bool.not_eq_true']
        exact ⟨hp, by simpa using hcov⟩
      rw [hnil] at this
      simp at this
    · rw [if_neg hdone]
      cases remaining with
      | nil =>
        rcases hinv p hp with h | ⟨g, hg, _⟩
        · exact h
        · simp at hg
      | cons first rest =>
        simp only
        have hmem : chooseBest R C cover cells first rest ∈ first :: rest := by
          rcases chooseBest_mem R C cover cells rest first with h | h
          · rw [h]; exact List.mem_cons_self _ _
          · exact List.mem_cons_of_mem _ h
        apply greedyLoop_covers R C cells fuel _ _ _ _ p hp
        · rw [List.length_erase_of_mem hmem]
          simp only [List.length_cons] at hlen ⊢
          omega
        · intro q hq
          rcases hinv q hq with h | ⟨g, hg, hqg⟩
          · exact Or.inl ((covered_append R C _ _ q).2 (Or.inl h))
          · by_cases hgb : g = chooseBest R C cover cells first rest
            · left
              refine (covered_append R C _ _ q).2 (Or.inr ?_)
              rw [covered_iff]
              exact ⟨g, by rw [hgb]; exact List.mem_singleton_self _, hqg⟩
            · right
              exact ⟨g, (List.mem_erase_of_ne hgb).2 hg, hqg⟩

theorem greedyLoop_subset (R C : Nat) (cells : List (Nat × Nat)) :
    ∀ (fuel : Nat) (remaining cover : List MapTable),
      ∀ g ∈ greedyLoop R C cells fuel remaining cover, g ∈ cover ∨ g ∈ remaining
  | 0, remaining, cover => by
    intro g hg
    exact Or.inl (by simpa [greedyLoop] using hg)
  | fuel + 1, remaining, cover => by
    intro g hg
    unfold greedyLoop at hg
    by_cases hdone : (uncovered R C cover cells).isEmpty = true
    · rw [if_pos hdone] at hg
      exact Or.inl hg
    · rw [if_neg hdone] at hg
      cases remaining with
      | nil => exact Or.inl hg
      | cons first rest =>
        simp only at hg
        have hmem : chooseBest R C cover cells first rest ∈ first :: rest := by
          rcases chooseBest_mem R C cover cells rest first with h | h
          · rw [h]; exact List.mem_cons_self _ _
          · exact List.mem_cons_of_mem _ h
        rcases greedyLoop_subset R C cells fuel _ _ g hg with h | h
        · rcases List.mem_append.1 h with h | h
          · exact Or.inl h
          · rw [List.mem_singleton.1 h]
            exact Or.inr hmem
        · exact Or.inr (List.mem_of_mem_erase h)

theorem redundancyPass_covered (R C : Nat) (p : Nat × Nat) :
    ∀ (todo kept : List MapTable),
      covered R C (redundancyPass R C kept todo) p = true ↔
        covered R C (kept ++ todo) p = true
  | [], kept => by simp [redundancyPass]
  | g :: rest, kept => by
    unfold redundancyPass
    by_cases hred : subsetCells (g.cells R C) ((kept ++ rest).flatMap fun h => h.cells R C) = true
    · rw [if_pos hred, redundancyPass_covered R C p rest kept]
      rw [subsetCells_iff] at hred
      simp only [covered_iff, List.mem_append, List.mem_cons]
      constructor
      · rintro ⟨h, hh | hh, hph⟩
        · exact ⟨h, Or.inl hh, hph⟩
        · exact ⟨h, Or.inr (Or.inr hh), hph⟩
      · rintro ⟨h, hh | hh | hh, hph⟩
        · exact ⟨h, Or.inl hh, hph⟩
        · subst hh
          have := hred p hph
          simp only [List.mem_flatMap, List.mem_append] at this
          exact this
        · exact ⟨h, Or.inr hh, hph⟩
    · rw [if_neg hred, redundancyPass_covered R C p rest (kept ++ [g])]
      simp [List.append_assoc]

theorem redundancyPass_subset (R C : Nat) :
    ∀ (todo kept : List MapTable), ∀ g ∈ redundancyPass R C kept todo, g ∈ kept ∨ g ∈ todo
  | [], kept => by
    intro g hg
    exact Or.inl (by simpa [redundancyPass] using hg)
  | t :: rest, kept => by
    intro g hg
    unfold redundancyPass at hg
    by_cases hred : subsetCells (t.cells R C) ((kept ++ rest).flatMap fun h => h.cells R C) = true
    · rw [if_pos hred] at hg
      rcases redundancyPass_subset R C rest kept g hg with h | h
      · exact Or.inl h
      · exact Or.inr (List.mem_cons_of_mem _ h)
    · rw [if_neg hred] at hg
      rcases redundancyPass_subset R C rest (kept ++ [t]) g hg with h | h
      · rcases List.mem_append.1 h with h | h
        · exact Or.inl h
        · rw [List.mem_singleton.1 h]
          exact Or.inr (List.mem_cons_self _ _)
      · exact Or.inr (List.mem_cons_of_mem _ h)

theorem gridDimensions_eq_decideRowColumn (N : Int) (h1 : 1 ≤ N) (h10 : N ≤ 10) :
    ((gridDimensions N.toNat).1 : Int) = (decideRowColumn N).1 ∧
    ((gridDimensions N.toNat).2 : Int) = (decideRowColumn N).2 := by
  interval_cases N <;> simp [gridDimensions, decideRowColumn, pow2] <;> decide

theorem mem_trueCells (grid : GridModel) (p : Nat × Nat) :
    p ∈ trueCells grid ↔ p.1 < grid.ROWS ∧ p.2 < grid.COLS ∧ grid.valueAt p.1 p.2 = true := by
  unfold trueCells
  simp only [List.mem_flatMap, List.mem_map, List.mem_filter, List.mem_range]
  constructor
  · rintro ⟨r, hr, c, ⟨hc, hv⟩, rfl⟩
    exact ⟨hr, hc, hv⟩
  · rintro ⟨hr, hc, hv⟩
    exact ⟨p.1, hr, p.2, ⟨hc, hv⟩, rfl⟩

/-- The cover selected from the maximal groups of a grid exists and covers
exactly the true cells of the grid. -/
theorem selectMinimalCover_coverage (grid : GridModel) :
    ∃ cover,
      selectMinimalCover grid.ROWS grid.COLS (findMaximalGroups grid) (trueCells grid)
        = .ok cover ∧
      ∀ p : Nat × Nat, covered grid.ROWS grid.COLS cover p = true ↔ p ∈ trueCells grid := by
  have hcand : ∀ p ∈ trueCells grid,
      ∃ g ∈ findMaximalGroups grid, p ∈ g.cells grid.ROWS grid.COLS := by
    intro p hp
    obtain ⟨hr, hc, hv⟩ := (mem_trueCells grid p).1 hp
    have hunit : ({ i := p.1, j := p.2, iSize := 1, jSize := 1 } : MapTable)
        ∈ allValidGroups grid :=
      (mem_allValidGroups grid _).2 ⟨hr, hc, unit_group_valid grid p.1 p.2 hr hc hv⟩
    refine exists_maximal_covering grid _ hunit p ?_
    refine (mem_cells _ _ _ p).2 ⟨0, 0, Nat.one_pos, Nat.one_pos, ?_⟩
    simp only [Nat.add_zero, Nat.mod_eq_of_lt hr, Nat.mod_eq_of_lt hc]
  have hguard : (!(trueCells grid).isEmpty && (findMaximalGroups grid).isEmpty) = false := by
    cases hc : trueCells grid with
    | nil => simp
    | cons p rest =>
      obtain ⟨g, hg, _⟩ := hcand p (by rw [hc]; exact List.mem_cons_self _ _)
      cases hm : findMaximalGroups grid with
      | nil => rw [hm] at hg; simp at hg
      | cons _ _ => simp
  unfold selectMinimalCover
  rw [hguard]
  simp only [Bool.false_eq_true, if_false]
  refine ⟨_, rfl, ?_⟩
  intro p
  rw [redundancyPass_covered, List.nil_append]
  constructor
  · intro hcov
    obtain ⟨g, hg, hpg⟩ := (covered_iff _ _ _ p).1 hcov
    have hgm : g ∈ findMaximalGroups grid := by
      rcases greedyLoop_subset _ _ _ _ _ _ g hg with h | h
      · exact (List.mem_filter.1 h).1
      · exact (List.mem_filter.1 h).1
    have hga := ((mem_findMaximalGroups grid g).1 hgm).1
    have hvalid := ((mem_allValidGroups grid g).1 hga).2.2
    exact (mem_trueCells grid p).2 (isValidGroup_cells grid g.i g.j g.iSize g.jSize hvalid p hpg)
  · intro hp
    refine greedyLoop_covers _ _ _ _ _ _ (le_refl _) ?_ p hp
    intro q hq
    obtain ⟨g, hg, hqg⟩ := hcand q hq
    by_cases hess : isEssential grid.ROWS grid.COLS (findMaximalGroups grid) (trueCells grid) g
        = true
    · left
      exact (covered_iff _ _ _ q).2 ⟨g, List.mem_filter.2 ⟨hg, hess⟩, hqg⟩
    · right
      refine ⟨g, List.mem_filter.2 ⟨hg, ?_⟩, hqg⟩
      simp only [Bool.not_eq_true', List.contains_eq_any_beq, List.any_eq_false,
        List.mem_filter, beq_iff_eq, and_imp]
      intro x _ hxe hgx
      exact hess (hgx ▸ hxe)

/-! ## Theorems -/

/-- C1: for `1 ≤ N ≤ 10` the derived dimensions are `ROW = COLUMN = 2^(N/2)` for
even `N`, and `ROW = 2^floor(N/2)`, `COLUMN = 2^(floor(N/2)+1)` for odd `N`,
whatever the members held before; `N = 2` gives 2 by 2 and `N = 3` gives 2 by 4. -/
theorem C1_dimensions (s : InputNoOfVariablesWindow) (N : Int) (h1 : 1 ≤ N) (h10 : N ≤ 10) :
    (N % 2 = 0 →
      (RecieveInputWindow { s with NOV := N }).self.ROW = 2 ^ (N / 2).toNat ∧
      (RecieveInputWindow { s with NOV := N }).self.COLUMN = 2 ^ (N / 2).toNat) ∧
    (N % 2 = 1 →
      (RecieveInputWindow { s with NOV := N }).self.ROW = 2 ^ (N / 2).toNat ∧
      (RecieveInputWindow { s with NOV := N }).self.COLUMN = 2 ^ ((N / 2).toNat + 1)) ∧
    (N = 2 →
      (RecieveInputWindow { s with NOV := N }).self.ROW = 2 ∧
      (RecieveInputWindow { s with NOV := N }).self.COLUMN = 2) ∧
    (N = 3 →
      (RecieveInputWindow { s with NOV := N }).self.ROW = 2 ∧
      (RecieveInputWindow { s with NOV := N }).self.COLUMN = 4) := by
  interval_cases N <;> simp [RecieveInputWindow_self, decideRowColumn, pow2] <;> decide

theorem C1_dimensions_witness :
    (RecieveInputWindow { (⟨0, 7, 7, 7⟩ : InputNoOfVariablesWindow) with NOV := 5 }).self.ROW = 4 ∧
    (RecieveInputWindow { (⟨0, 7, 7, 7⟩ : InputNoOfVariablesWindow) with NOV := 5 }).self.COLUMN = 8 :=
  ((C1_dimensions ⟨0, 7, 7, 7⟩ 5 (by decide) (by decide)).2.1 (by decide))

/-- C2: for `1 ≤ N ≤ 10` the derived grid has `ROW * COLUMN = 2^N` cells, hence at
most 1024, and exactly 1024 at `N = 10`. -/
theorem C2_cell_count (s : InputNoOfVariablesWindow) (N : Int) (h1 : 1 ≤ N) (h10 : N ≤ 10) :
    (RecieveInputWindow { s with NOV := N }).self.ROW *
        (RecieveInputWindow { s with NOV := N }).self.COLUMN = 2 ^ N.toNat ∧
    (RecieveInputWindow { s with NOV := N }).self.ROW *
        (RecieveInputWindow { s with NOV := N }).self.COLUMN ≤ 1024 ∧
    (N = 10 →
      (RecieveInputWindow { s with NOV := N }).self.ROW *
        (RecieveInputWindow { s with NOV := N }).self.COLUMN = 1024) := by
  interval_cases N <;> simp [RecieveInputWindow_self, decideRowColumn, pow2] <;> decide

theorem C2_cell_count_witness :
    (RecieveInputWindow { (⟨0, 3, 5, 9⟩ : InputNoOfVariablesWindow) with NOV := 10 }).self.ROW *
      (RecieveInputWindow { (⟨0, 3, 5, 9⟩ : InputNoOfVariablesWindow) with NOV := 10 }).self.COLUMN
        = 1024 :=
  (C2_cell_count ⟨0, 3, 5, 9⟩ 10 (by decide) (by decide)).2.2 rfl

/-- C4, as stated, fails at `N = 3`: the claim gives `ROW = 2^ceil(3/2) = 4` and
`COLUMN = 2^floor(3/2) = 2`; the code derives `ROW = 2` and `COLUMN = 4`. -/
theorem C4_rows_ceil_counterexample :
    (RecieveInputWindow ⟨3, 0, 0, 0⟩).self.ROW = 2 ∧
    (RecieveInputWindow ⟨3, 0, 0, 0⟩).self.COLUMN = 4 ∧
    ¬ ((RecieveInputWindow ⟨3, 0, 0, 0⟩).self.ROW = 2 ^ (((3 : Int) + 1) / 2).toNat ∧
       (RecieveInputWindow ⟨3, 0, 0, 0⟩).self.COLUMN = 2 ^ ((3 : Int) / 2).toNat) := by
  decide

/-- C4, amended: for `1 ≤ N ≤ 10` the row index takes `floor(N/2)` variables and
the column index `ceil(N/2)`: `ROW = 2^floor(N/2)` and `COLUMN = 2^ceil(N/2)`,
with `ceil(N/2)` written `(N + 1) / 2` in floor division. -/
theorem C4_rows_floor_columns_ceil (s : InputNoOfVariablesWindow) (N : Int)
    (h1 : 1 ≤ N) (h10 : N ≤ 10) :
    (RecieveInputWindow { s with NOV := N }).self.ROW = 2 ^ (N / 2).toNat ∧
    (RecieveInputWindow { s with NOV := N }).self.COLUMN = 2 ^ ((N + 1) / 2).toNat ∧
    (N / 2).toNat + ((N + 1) / 2).toNat = N.toNat := by
  interval_cases N <;> simp [RecieveInputWindow_self, decideRowColumn, pow2] <;> decide

theorem C4_rows_floor_columns_ceil_witness :
    (RecieveInputWindow { (⟨0, 0, 0, 0⟩ : InputNoOfVariablesWindow) with NOV := 7 }).self.ROW = 8 ∧
    (RecieveInputWindow { (⟨0, 0, 0, 0⟩ : InputNoOfVariablesWindow) with NOV := 7 }).self.COLUMN
      = 16 :=
  ⟨(C4_rows_floor_columns_ceil ⟨0, 0, 0, 0⟩ 7 (by decide) (by decide)).1,
   (C4_rows_floor_columns_ceil ⟨0, 0, 0, 0⟩ 7 (by decide) (by decide)).2.1⟩

/-- C7: the side chosen is 32 for `N` in `{6, 7}`, 16 for `N = 8`, 8 for `N` in
`{9, 10}`, and 64 for every other `N`, whatever `side` held before. -/
theorem C7_side (s : InputNoOfVariablesWindow) (N : Int) :
    (N = 6 ∨ N = 7 → (RecieveInputWindow { s with NOV := N }).self.side = 32) ∧
    (N = 8 → (RecieveInputWindow { s with NOV := N }).self.side = 16) ∧
    (N = 9 ∨ N = 10 → (RecieveInputWindow { s with NOV := N }).self.side = 8) ∧
    (N < 6 ∨ 10 < N → (RecieveInputWindow { s with NOV := N }).self.side = 64) := by
  simp only [RecieveInputWindow_self, decideSide]
  refine ⟨?_, ?_, ?_, ?_⟩
  · rintro (h | h) <;> subst h <;> simp
  · rintro h; subst h; simp
  · rintro (h | h) <;> subst h <;> simp
  · intro h
    have h6 : ¬ (N = 6 ∨ N = 7) := by omega
    have h8 : ¬ N = 8 := by omega
    have h9 : ¬ (N = 9 ∨ N = 10) := by omega
    simp [h6, h8, h9]

theorem C7_side_witness :
    (RecieveInputWindow { (⟨0, 0, 0, 8⟩ : InputNoOfVariablesWindow) with NOV := 4 }).self.side
      = 64 :=
  (C7_side ⟨0, 0, 0, 8⟩ 4).2.2.2 (Or.inl (by decide))

/-- C8, evaluated on the code: for two states that agree on a `NOV` of at most
8 the call leaves equal `ROW`, `COLUMN` and `side` and leaves `NOV` unchanged,
and a click with `N ≤ 5` after a click with `N` from 6 to 8 leaves `side = 64`
again.  At `NOV = 9` and `NOV = 10` the call leaves defined behaviour at the
store `button[0][16]`, so there the members left are not determined by `NOV`. -/
theorem C8_members_left :
    (∀ s t : InputNoOfVariablesWindow, s.NOV = t.NOV → s.NOV ≤ 8 →
      ∃ c d, (RecieveInputWindow s).outcome = .ok c ∧ (RecieveInputWindow t).outcome = .ok d ∧
        c.members.ROW = d.members.ROW ∧ c.members.COLUMN = d.members.COLUMN ∧
        c.members.side = d.members.side ∧ c.members.NOV = s.NOV) ∧
    (∀ (s : InputNoOfVariablesWindow) (n m : Int), 6 ≤ n → n ≤ 8 → m ≤ 5 →
      ∃ c d, (on_pushButton_clicked n s).outcome = .ok c ∧
        (on_pushButton_clicked m c.members).outcome = .ok d ∧
        c.members.side < 64 ∧ d.members.side = 64) ∧
    (RecieveInputWindow ⟨9, 1, 2, 3⟩).outcome = .error (.store 0 16) ∧
    (RecieveInputWindow ⟨9, 40, 50, 64⟩).outcome = .error (.store 0 16) ∧
    (RecieveInputWindow ⟨10, 1, 2, 3⟩).outcome = .error (.store 0 16) := by
  refine ⟨?_, ?_, (RecieveInputWindow_nine ⟨9, 1, 2, 3⟩).2,
    (RecieveInputWindow_nine ⟨9, 40, 50, 64⟩).2, (RecieveInputWindow_ten ⟨10, 1, 2, 3⟩).2⟩
  · intro s t h h8
    obtain ⟨hd, hR, hC⟩ := le_eight_fits s.NOV h8
    have hs := (RecieveInputWindow_of_fits s hd hR hC).2
    have ht := (RecieveInputWindow_of_fits t (h ▸ hd) (h ▸ hR) (h ▸ hC)).2
    refine ⟨_, _, hs, ht, ?_, ?_, ?_, rfl⟩ <;> simp [RecieveInputWindow_self, h]
  · intro s n m h6 h8 h5
    obtain ⟨hd, hR, hC⟩ := le_eight_fits n h8
    have hn := (RecieveInputWindow_of_fits { s with NOV := n } hd hR hC).2
    obtain ⟨hd2, hR2, hC2⟩ := le_eight_fits m (by omega)
    have hm := (RecieveInputWindow_of_fits
      { (RecieveInputWindow { s with NOV := n }).self with NOV := m } hd2 hR2 hC2).2
    refine ⟨_, _, hn, hm, ?_, ?_⟩
    · show decideSide n < 64
      interval_cases n <;> decide
    · show decideSide m = 64
      have h67 : ¬ (m = 6 ∨ m = 7) := by omega
      have h8 : ¬ m = 8 := by omega
      have h9 : ¬ (m = 9 ∨ m = 10) := by omega
      simp [decideSide, h67, h8, h9]

/-- C9, evaluated on the code: for `1 ≤ N ≤ 8` the call fixes the size
`side*(COLUMN-1)+100` by `side*(ROW-1)+150`, which is at least `side*COLUMN` by
`side*ROW`, at most 580 by 390 (580 wide at `N = 7`, 390 high at `N = 8`) and
within `MAXX` by `MAXY`.  At `N = 9` and `N = 10` the call leaves defined
behaviour at the store `button[0][16]`, before line 69, so the sizes 348 by 270
and 348 by 398 are not what the code sets. -/
theorem C9_window_size :
    (∀ (s : InputNoOfVariablesWindow) (N : Int), 1 ≤ N → N ≤ 8 →
      ∃ c, (RecieveInputWindow { s with NOV := N }).outcome = .ok c ∧
        c.fixedWidth = c.members.side * (c.members.COLUMN - 1) + 100 ∧
        c.fixedHeight = c.members.side * (c.members.ROW - 1) + 150 ∧
        c.members.side * c.members.COLUMN ≤ c.fixedWidth ∧
        c.members.side * c.members.ROW ≤ c.fixedHeight ∧
        c.fixedWidth ≤ 580 ∧ c.fixedHeight ≤ 390 ∧
        (N = 7 → c.fixedWidth = 580) ∧ (N = 8 → c.fixedHeight = 390) ∧
        c.fixedWidth ≤ MAXX ∧ c.fixedHeight ≤ MAXY) ∧
    (∀ s : InputNoOfVariablesWindow,
      (RecieveInputWindow { s with NOV := 9 }).outcome = .error (.store 0 16)) ∧
    (∀ s : InputNoOfVariablesWindow,
      (RecieveInputWindow { s with NOV := 10 }).outcome = .error (.store 0 16)) := by
  refine ⟨?_, fun s => (RecieveInputWindow_nine s).2, fun s => (RecieveInputWindow_ten s).2⟩
  intro s N h1 h8
  obtain ⟨hd, hR, hC⟩ := le_eight_fits N h8
  refine ⟨_, (RecieveInputWindow_of_fits { s with NOV := N } hd hR hC).2, ?_⟩
  interval_cases N <;>
    simp [RecieveInputWindow_self, decideRowColumn, decideSide, pow2, MAXX, MAXY] <;> decide

/-- C3, evaluated at the failing inputs: at `N = 9` (`ROW = 16`, `COLUMN = 32`)
and at `N = 10` (`ROW = COLUMN = 32`) the loops reach the store `button[0][16]`,
outside `button[MROW][MCOLUMN]` with `MROW = MCOLUMN = 16`, and the call leaves
defined behaviour there; so the claimed bound fails for the range 1 to 10. -/
theorem C3_button_store_overflow :
    MROW = 16 ∧ MCOLUMN = 16 ∧
    (on_pushButton_clicked 9 ⟨0, 0, 0, 0⟩).self.ROW = 16 ∧
    (on_pushButton_clicked 9 ⟨0, 0, 0, 0⟩).self.COLUMN = 32 ∧
    (∃ c ∈ (on_pushButton_clicked 9 ⟨0, 0, 0, 0⟩).created,
      c.i = 0 ∧ c.j = 16 ∧ ¬ inButtonStore c.i c.j) ∧
    (on_pushButton_clicked 9 ⟨0, 0, 0, 0⟩).outcome = .error (.store 0 16) ∧
    (on_pushButton_clicked 10 ⟨0, 0, 0, 0⟩).self.ROW = 32 ∧
    (on_pushButton_clicked 10 ⟨0, 0, 0, 0⟩).self.COLUMN = 32 ∧
    (∃ c ∈ (on_pushButton_clicked 10 ⟨0, 0, 0, 0⟩).created,
      c.i = 0 ∧ c.j = 16 ∧ ¬ inButtonStore c.i c.j) ∧
    (on_pushButton_clicked 10 ⟨0, 0, 0, 0⟩).outcome = .error (.store 0 16) ∧
    ¬ (∀ N : Int, 1 ≤ N → N ≤ 10 →
        (on_pushButton_clicked N ⟨0, 0, 0, 0⟩).self.ROW ≤ MROW ∧
        (on_pushButton_clicked N ⟨0, 0, 0, 0⟩).self.COLUMN ≤ MCOLUMN) := by
  refine ⟨rfl, rfl, by decide, by decide, ?_, (RecieveInputWindow_nine ⟨0, 0, 0, 0⟩).2,
    by decide, by decide, ?_, (RecieveInputWindow_ten ⟨0, 0, 0, 0⟩).2, ?_⟩
  · refine ⟨loopBody 9 16 32 8 0 16, ?_, rfl, rfl, by decide⟩
    unfold on_pushButton_clicked
    rw [(RecieveInputWindow_nine ⟨0, 0, 0, 0⟩).1]
    exact List.mem_map.2 ⟨16, List.mem_range.2 (by decide), rfl⟩
  · refine ⟨loopBody 10 32 32 8 0 16, ?_, rfl, rfl, by decide⟩
    unfold on_pushButton_clicked
    rw [(RecieveInputWindow_ten ⟨0, 0, 0, 0⟩).1]
    exact List.mem_map.2 ⟨16, List.mem_range.2 (by decide), rfl⟩
  · intro h
    exact absurd (h 9 (by decide) (by decide)).2 (by decide)

/-- C5, as stated, fails at `N = 0`: the click is not rejected; it derives
`ROW = COLUMN = 1`, creates the one button `button[0][0]`, fixes the size 100 by
150 and shows the window. -/
theorem C5_zero_not_rejected_counterexample :
    (on_pushButton_clicked 0 ⟨0, 0, 0, 0⟩).self.ROW = 1 ∧
    (on_pushButton_clicked 0 ⟨0, 0, 0, 0⟩).self.COLUMN = 1 ∧
    (on_pushButton_clicked 0 ⟨0, 0, 0, 0⟩).created = [loopBody 0 1 1 64 0 0] ∧
    (on_pushButton_clicked 0 ⟨0, 0, 0, 0⟩).outcome =
      .ok { members := ⟨0, 1, 1, 64⟩, fixedWidth := 100, fixedHeight := 150, shown := true } ∧
    gridBuilt (on_pushButton_clicked 0 ⟨0, 0, 0, 0⟩) ∧
    ¬ (∀ N : Int, N < 1 ∨ 10 < N → ¬ gridBuilt (on_pushButton_clicked N ⟨0, 0, 0, 0⟩)) := by
  have hc : (on_pushButton_clicked 0 ⟨0, 0, 0, 0⟩).created = [loopBody 0 1 1 64 0 0] := by
    decide
  have ho : (on_pushButton_clicked 0 ⟨0, 0, 0, 0⟩).outcome =
      .ok { members := ⟨0, 1, 1, 64⟩, fixedWidth := 100, fixedHeight := 150, shown := true } :=
    rfl
  have hg : gridBuilt (on_pushButton_clicked 0 ⟨0, 0, 0, 0⟩) := by
    refine ⟨?_, _, ho, rfl⟩
    rw [hc]
    exact List.cons_ne_nil _ _
  exact ⟨by decide, by decide, hc, ho, hg, fun h => h 0 (Or.inl (by decide)) hg⟩

/-- C5, amended: the click path has no range check.  For every integer `N ≤ 8`,
so for every `N < 1` as well, it stores `NOV = N`, leaves the members as
decided and runs through to `window->show()`; for every `N` from 0 to 8 it
builds a grid. -/
theorem C5_no_rejection (s : InputNoOfVariablesWindow) (N : Int) (h8 : N ≤ 8) :
    (∃ c, (on_pushButton_clicked N s).outcome = .ok c ∧
      c.members = (on_pushButton_clicked N s).self ∧ c.members.NOV = N ∧ c.shown = true) ∧
    (0 ≤ N → gridBuilt (on_pushButton_clicked N s)) := by
  obtain ⟨hd, hR, hC⟩ := le_eight_fits N h8
  obtain ⟨hcr, hout⟩ := RecieveInputWindow_of_fits { s with NOV := N } hd hR hC
  refine ⟨⟨_, hout, rfl, rfl, rfl⟩, ?_⟩
  intro h0
  refine ⟨?_, _, hout, rfl⟩
  obtain ⟨hR1, _, hC1, _, _⟩ := small_fits N h0 h8
  intro hnil
  have hlen : (on_pushButton_clicked N s).created.length = 0 := by rw [hnil]; rfl
  unfold on_pushButton_clicked at hlen
  rw [hcr, createButtons_length] at hlen
  simp only at hlen
  rcases Nat.mul_eq_zero.1 hlen with h | h <;> omega

theorem C5_no_rejection_witness :
    gridBuilt (on_pushButton_clicked 0 ⟨5, 4, 8, 64⟩) :=
  (C5_no_rejection ⟨5, 4, 8, 64⟩ 0 (by decide)).2 (by decide)

/-- C10, as stated, fails at `N = -1`: the derived grid is 1 by 2 and fits the
button store, the call creates 2 buttons, and 2 is not `2^(-1)`. -/
theorem C10_negative_count_counterexample :
    (RecieveInputWindow ⟨-1, 0, 0, 0⟩).self.ROW = 1 ∧
    (RecieveInputWindow ⟨-1, 0, 0, 0⟩).self.COLUMN = 2 ∧
    (RecieveInputWindow ⟨-1, 0, 0, 0⟩).self.ROW ≤ MROW ∧
    (RecieveInputWindow ⟨-1, 0, 0, 0⟩).self.COLUMN ≤ MCOLUMN ∧
    (RecieveInputWindow ⟨-1, 0, 0, 0⟩).created =
      [loopBody (-1) 1 2 64 0 0, loopBody (-1) 1 2 64 0 1] ∧
    (RecieveInputWindow ⟨-1, 0, 0, 0⟩).outcome =
      .ok { members := ⟨-1, 1, 2, 64⟩, fixedWidth := 164, fixedHeight := 150, shown := true } ∧
    (((RecieveInputWindow ⟨-1, 0, 0, 0⟩).created.length : ℚ) ≠ (2 : ℚ) ^ (-1 : Int)) := by
  have hc : (RecieveInputWindow ⟨-1, 0, 0, 0⟩).created =
      [loopBody (-1) 1 2 64 0 0, loopBody (-1) 1 2 64 0 1] := by decide
  refine ⟨by decide, by decide, by decide, by decide, hc, rfl, ?_⟩
  rw [hc]
  norm_num

/-- C10, amended: whenever the conversions of lines 26-29 are defined and the
derived grid fits the button store, the call creates one button per cell and
runs through to `window->show()`.  The `setter` calls number `ROW * COLUMN`,
which is `2^N` for a count `N ≥ 0`; the `k`-th one carries
`(k / COLUMN, k % COLUMN)`, so they run through the cells in row-major order,
without repeats and without omissions; every button sits at layout position
`(i, j)` and store index `(i, j)` inside the store, is `side` by `side`, and
shows the text "0". -/
theorem C10_one_button_per_cell (s : InputNoOfVariablesWindow)
    (hdef : decideRowColumnDefined s.NOV = true)
    (hR : (RecieveInputWindow s).self.ROW ≤ MROW)
    (hC : (RecieveInputWindow s).self.COLUMN ≤ MCOLUMN) :
    (∃ c, (RecieveInputWindow s).outcome = .ok c ∧ c.members = (RecieveInputWindow s).self) ∧
    ((RecieveInputWindow s).created.length : Int) =
      (RecieveInputWindow s).self.ROW * (RecieveInputWindow s).self.COLUMN ∧
    (0 ≤ s.NOV → ((RecieveInputWindow s).created.length : Int) = 2 ^ s.NOV.toNat) ∧
    (∀ k : Nat, k < (RecieveInputWindow s).created.length →
      ∃ c, (RecieveInputWindow s).created[k]? = some c ∧
        c.setter.i = (k : Int) / (RecieveInputWindow s).self.COLUMN ∧
        c.setter.j = (k : Int) % (RecieveInputWindow s).self.COLUMN) ∧
    ((RecieveInputWindow s).created.map fun c => (c.setter.i, c.setter.j)).Nodup ∧
    (∀ i j : Int, 0 ≤ i → i < (RecieveInputWindow s).self.ROW →
      0 ≤ j → j < (RecieveInputWindow s).self.COLUMN →
      ∃ c ∈ (RecieveInputWindow s).created, c.setter.i = i ∧ c.setter.j = j) ∧
    (∀ c ∈ (RecieveInputWindow s).created,
      0 ≤ c.setter.i ∧ c.setter.i < (RecieveInputWindow s).self.ROW ∧
      0 ≤ c.setter.j ∧ c.setter.j < (RecieveInputWindow s).self.COLUMN ∧
      c.i = c.setter.i ∧ c.j = c.setter.j ∧ inButtonStore c.i c.j ∧
      c.layoutRow = c.setter.i ∧ c.layoutColumn = c.setter.j ∧
      c.button.width = (RecieveInputWindow s).self.side ∧
      c.button.height = (RecieveInputWindow s).self.side ∧
      c.button.text = "0" ∧
      c.setter.NOV = s.NOV ∧ c.setter.ROW = (RecieveInputWindow s).self.ROW ∧
      c.setter.COLUMN = (RecieveInputWindow s).self.COLUMN ∧
      c.setter.side = (RecieveInputWindow s).self.side) := by
  obtain ⟨hR0, hC0⟩ := decideRowColumn_nonneg s.NOV
  obtain ⟨hcr, hout⟩ := RecieveInputWindow_of_fits s hdef hR hC
  refine ⟨⟨_, hout, rfl⟩, ?_⟩
  rw [hcr]
  simp only [RecieveInputWindow_self] at hR hC ⊢
  generalize hrow : (decideRowColumn s.NOV).1 = R at hR hR0 ⊢
  generalize hcol : (decideRowColumn s.NOV).2 = C at hC hC0 ⊢
  have hlenN := createButtons_length s.NOV R C (decideSide s.NOV)
  have hlen : ((createButtons s.NOV R C (decideSide s.NOV)).length : Int) = R * C := by
    rw [hlenN]
    push_cast
    rw [Int.toNat_of_nonneg hR0, Int.toNat_of_nonneg hC0]
  refine ⟨hlen, ?_, ?_, createButtons_nodup _ _ _ _, ?_, ?_⟩
  · intro h0
    have h8 : s.NOV ≤ 8 := fits_le_eight s.NOV h0 (by rw [hcol]; exact hC)
    rw [hlen, ← hrow, ← hcol]
    exact (small_fits s.NOV h0 h8).2.2.2.2
  · intro k hk
    rw [hlenN] at hk
    refine ⟨_, createButtons_getElem? s.NOV R C (decideSide s.NOV) k hk, ?_, ?_⟩
    · simp only [loopBody]
      push_cast
      rw [Int.toNat_of_nonneg hC0]
    · simp only [loopBody]
      push_cast
      rw [Int.toNat_of_nonneg hC0]
  · intro i j hi0 hi hj0 hj
    refine ⟨loopBody s.NOV R C (decideSide s.NOV) i j, ?_, rfl, rfl⟩
    refine (mem_createButtons _ _ _ _ _).2 ⟨i.toNat, j.toNat, by omega, by omega, ?_⟩
    rw [Int.toNat_of_nonneg hi0, Int.toNat_of_nonneg hj0]
  · intro c hc
    obtain ⟨i, j, hi, hj, rfl⟩ := (mem_createButtons _ _ _ _ c).1 hc
    refine ⟨?_, ?_, ?_, ?_, rfl, rfl, ⟨?_, ?_, ?_, ?_⟩, rfl, rfl, rfl, rfl, rfl, rfl, rfl, rfl,
      rfl⟩ <;> simp only [loopBody] <;> omega

theorem C10_one_button_per_cell_witness :
    ((RecieveInputWindow ⟨3, 0, 0, 0⟩).created.length : Int) = 2 ^ (3 : Int).toNat ∧
    ∃ c, (RecieveInputWindow ⟨3, 0, 0, 0⟩).created[5]? = some c ∧
      c.setter.i = ((5 : Nat) : Int) / (RecieveInputWindow ⟨3, 0, 0, 0⟩).self.COLUMN ∧
      c.setter.j = ((5 : Nat) : Int) % (RecieveInputWindow ⟨3, 0, 0, 0⟩).self.COLUMN :=
  ⟨(C10_one_button_per_cell ⟨3, 0, 0, 0⟩ (by decide) (by decide) (by decide)).2.2.1 (by decide),
   (C10_one_button_per_cell ⟨3, 0, 0, 0⟩ (by decide) (by decide) (by decide)).2.2.2.1 5
     (by decide)⟩

/-- C6: for every input grid (a variable count from 1 to 10 and a matrix of the
derived shape) the solve produces a cover, and the cells its groups span, wrap
resolved modulo the grid extents, are exactly the true cells of the grid: every
true cell is covered and no false cell is. -/
theorem C6_coverage (variableCount : Int) (matrix : List (List Bool))
    (h1 : 1 ≤ variableCount) (h10 : variableCount ≤ 10)
    (hrows : matrix.length = (gridDimensions variableCount.toNat).1)
    (hcols : ∀ row ∈ matrix, row.length = (gridDimensions variableCount.toNat).2) :
    ∃ cover, solveCover variableCount matrix = .ok cover ∧
      ∀ r c : Nat,
        (∃ g ∈ cover, (r, c) ∈ g.cells (gridDimensions variableCount.toNat).1
            (gridDimensions variableCount.toNat).2) ↔
          (r < (gridDimensions variableCount.toNat).1 ∧
            c < (gridDimensions variableCount.toNat).2 ∧
            (matrix.getD r []).getD c false = true) := by
  have hrange : ¬ (variableCount < 1 ∨ 10 < variableCount) := by omega
  have hshape : matrix.length = (gridDimensions variableCount.toNat).1 ∧
      (matrix.all fun row => row.length == (gridDimensions variableCount.toNat).2) = true := by
    refine ⟨hrows, ?_⟩
    simp only [List.all_eq_true, beq_iff_eq]
    exact hcols
  have hgrid : GridModel.construct variableCount matrix =
      .ok { ROWS := (gridDimensions variableCount.toNat).1,
            COLS := (gridDimensions variableCount.toNat).2, matrix := matrix } := by
    unfold GridModel.construct
    rw [if_neg hrange]
    simp only
    rw [if_pos hshape]
  obtain ⟨cover, hok, hcov⟩ := selectMinimalCover_coverage
    { ROWS := (gridDimensions variableCount.toNat).1,
      COLS := (gridDimensions variableCount.toNat).2, matrix := matrix }
  refine ⟨cover, ?_, ?_⟩
  · unfold solveCover
    rw [hgrid]
    exact hok
  · intro r c
    rw [← covered_iff, hcov (r, c), mem_trueCells]
    rfl

theorem C6_coverage_witness :
    solveCover 2 [[true, false], [false, true]] =
        .ok [{ i := 0, j := 0, iSize := 1, jSize := 1 }, { i := 1, j := 1, iSize := 1, jSize := 1 }] ∧
    ∃ cover, solveCover 2 [[true, false], [false, true]] = .ok cover ∧
      ∀ r c : Nat,
        (∃ g ∈ cover, (r, c) ∈ g.cells (gridDimensions (2 : Int).toNat).1
            (gridDimensions (2 : Int).toNat).2) ↔
          (r < (gridDimensions (2 : Int).toNat).1 ∧
            c < (gridDimensions (2 : Int).toNat).2 ∧
            (([[true, false], [false, true]] : List (List Bool)).getD r []).getD c false = true) :=
  ⟨rfl, C6_coverage 2 [[true, false], [false, true]] (by decide) (by decide) (by decide)
    (by decide)⟩

end KMap
